import Mathlib

/-!
Shallow embedding of the GLib-based hierarchical state machine runtime
implemented in src/101/hsm.c (header src/101/hsm.h), together with
theorems about its transition protocol, event dispatch and bubbling,
one-shot timers, argument validation and locking discipline.

Modelling conventions:
* C pointers that may be NULL are `Option` values; an opaque `gpointer`
  is `Option Nat` (an abstract address, `none` for NULL).
* Handler function pointers are abstract identifiers (`HandlerPtr`);
  the boolean a handler returns is supplied by a semantics parameter
  `sem`, and each call made by the runtime is recorded as an
  `Invocation` so theorems can speak about the observed call sequence.
* `GHashTable` is an association list with insert-replaces semantics.
* Effects the runtime performs on a `GMainContext` (posting a closure,
  spawning a thread, quitting the loop) are recorded as explicit
  result components instead of being executed.
-/

namespace HsmModel

/-- Event kinds, transcribing the HsmEventType enum of hsm.h; the C
enumerators carry the values 0 to 8 in declaration order. -/
inductive HsmEventType where
  | START
  | STEP
  | RESULT_OK
  | RESULT_ERROR
  | TIMEOUT
  | TIMEOUT_HANDLED
  | CANCEL
  | ENTRY
  | EXIT
  deriving DecidableEq, Repr

/-- Numeric value of each enumerator as assigned by the C enum. -/
def HsmEventType.toNat : HsmEventType → Nat
  | .START => 0
  | .STEP => 1
  | .RESULT_OK => 2
  | .RESULT_ERROR => 3
  | .TIMEOUT => 4
  | .TIMEOUT_HANDLED => 5
  | .CANCEL => 6
  | .ENTRY => 7
  | .EXIT => 8

/-- The enumerator carrying a given numeric value (a C integer cast
into the enum type). -/
def HsmEventType.ofValue : Nat → HsmEventType
  | 0 => .START
  | 1 => .STEP
  | 2 => .RESULT_OK
  | 3 => .RESULT_ERROR
  | 4 => .TIMEOUT
  | 5 => .TIMEOUT_HANDLED
  | 6 => .CANCEL
  | 7 => .ENTRY
  | _ => .EXIT

/-- An opaque gpointer: `none` is NULL, `some a` an abstract address. -/
abbrev GPointer := Option Nat

/-- A handler function pointer, kept abstract. -/
abbrev HandlerPtr := Nat

/-- struct HsmEvent of hsm.c: type, optional name, optional source,
sequence number, and the opaque data pointer. -/
structure HsmEvent where
  type : HsmEventType
  name : Option String
  source : Option String
  seq : Int
  data : GPointer
  deriving DecidableEq, Repr

/-- hsm_event_new: copies name and source (values in the model), stores
the data handle without copying. -/
def hsm_event_new (ty : HsmEventType) (name : Option String) (data : GPointer)
    (source : Option String) (seq : Int) : HsmEvent :=
  { type := ty, name := name, source := source, seq := seq, data := data }

/-- hsm_event_get_type: a NULL event yields the integer 0 cast to the
enum type. -/
def hsm_event_get_type (ev : Option HsmEvent) : HsmEventType :=
  match ev with
  | some e => e.type
  | none => HsmEventType.ofValue 0

/-- hsm_event_get_name: NULL event yields NULL. -/
def hsm_event_get_name (ev : Option HsmEvent) : Option String :=
  match ev with
  | some e => e.name
  | none => none

/-- hsm_event_get_source: NULL event yields NULL. -/
def hsm_event_get_source (ev : Option HsmEvent) : Option String :=
  match ev with
  | some e => e.source
  | none => none

/-- hsm_event_get_seq: NULL event yields 0. -/
def hsm_event_get_seq (ev : Option HsmEvent) : Int :=
  match ev with
  | some e => e.seq
  | none => 0

/-- hsm_event_get_data: NULL event yields NULL. -/
def hsm_event_get_data (ev : Option HsmEvent) : GPointer :=
  match ev with
  | some e => e.data
  | none => none

/-- A heap of live event allocations, keyed by address. -/
abbrev EventHeap := List (Nat × HsmEvent)

/-- hsm_event_free: freeing NULL returns at once and leaves the heap of
live events untouched; freeing a live event removes its allocation. -/
def hsm_event_free (heap : EventHeap) (ev : Option Nat) : EventHeap :=
  match ev with
  | none => heap
  | some p => heap.filter (fun kv => !(kv.1 = p : Bool))

/-- strcmp on character lists: zero on equal lists, the sign of the
first differing character otherwise, with a proper prefix sorting
first. -/
def strcmpChars : List Char → List Char → Int
  | [], [] => 0
  | [], _ :: _ => -1
  | _ :: _, [] => 1
  | a :: as, b :: bs =>
    if a = b then strcmpChars as bs
    else if a.toNat < b.toNat then -1 else 1

/-- g_strcmp0: total string comparison where NULL sorts before every
string and compares equal only to NULL; non-NULL strings compare by
strcmp. -/
def g_strcmp0 (a b : Option String) : Int :=
  match a, b with
  | none, none => 0
  | none, some _ => -1
  | some _, none => 1
  | some x, some y => strcmpChars x.data y.data

/-- GHashTable lookup on an association list. -/
def tableLookup {α β : Type} [DecidableEq α] : List (α × β) → α → Option β
  | [], _ => none
  | (k, v) :: rest, k0 => if k = k0 then some v else tableLookup rest k0

/-- GHashTable removal on an association list. -/
def tableRemove {α β : Type} [DecidableEq α] : List (α × β) → α → List (α × β)
  | [], _ => []
  | (k, v) :: rest, k0 =>
    if k = k0 then tableRemove rest k0 else (k, v) :: tableRemove rest k0

/-- g_hash_table_insert: inserting replaces any entry with the same key. -/
def tableInsert {α β : Type} [DecidableEq α] (t : List (α × β)) (k : α) (v : β) :
    List (α × β) :=
  (k, v) :: tableRemove t k

/-- struct HsmState of hsm.c: state name, handler pointer (possibly
NULL) and the user data registered with it. -/
structure HsmState where
  name : String
  handler : Option HandlerPtr
  user_data : GPointer
  deriving DecidableEq, Repr

/-- hsm_state_new. -/
def hsm_state_new (name : String) (handler : Option HandlerPtr)
    (user_data : GPointer) : HsmState :=
  { name := name, handler := handler, user_data := user_data }

/-- struct Hsm of hsm.c, restricted to the fields the verified
operations read or write; the GMainContext, GMainLoop and GMutex
handles themselves carry no modelled state beyond the flags kept here. -/
structure Hsm where
  name : Option String
  current_state : Option String
  parent : Option Nat
  states : List (String × HsmState)
  timers : List (Int × Nat)
  next_timer_id : Int
  thread : Option Nat
  running : Bool
  loop_running : Bool
  deriving DecidableEq, Repr

/-- hsm_new: fresh machine with no current state, no parent, empty
state and timer tables, and next_timer_id initialised to 1. -/
def hsm_new (name : Option String) : Hsm :=
  { name := name, current_state := none, parent := none, states := [],
    timers := [], next_timer_id := 1, thread := none, running := false,
    loop_running := false }

/-- hsm_set_parent: store the parent back-pointer when the machine is
not NULL. -/
def hsm_set_parent (h : Option Hsm) (parent : Option Nat) : Option Hsm :=
  match h with
  | none => none
  | some m => some { m with parent := parent }

/-- hsm_get_parent. -/
def hsm_get_parent (h : Option Hsm) : Option Nat :=
  match h with
  | none => none
  | some m => m.parent

/-- hsm_get_name. -/
def hsm_get_name (h : Option Hsm) : Option String :=
  match h with
  | none => none
  | some m => m.name

/-- hsm_register_state: a NULL machine or NULL state name is rejected
up front; otherwise a fresh entry (with whatever handler pointer was
passed, NULL included) replaces any previous entry for that name. -/
def hsm_register_state (h : Option Hsm) (state_name : Option String)
    (handler : Option HandlerPtr) (user_data : GPointer) : Option Hsm :=
  match h, state_name with
  | some m, some n =>
    some { m with states := tableInsert m.states n (hsm_state_new n handler user_data) }
  | _, _ => h

/-- One handler call made by the runtime: which handler pointer was
invoked, the state name passed, the event passed, and the user data. -/
structure Invocation where
  handler : HandlerPtr
  state : String
  event : HsmEvent
  user_data : GPointer
  deriving DecidableEq, Repr

/-- Result of running hsm_change_state_internal: the machine after the
transition and the handler calls it performed, in order. -/
structure ChangeResult where
  machine : Hsm
  invocations : List Invocation
  deriving DecidableEq, Repr

/-- hsm_change_state_internal, transcribed from hsm.c lines 276-303:
return at once when g_strcmp0 finds the target equal to the current
state; otherwise invoke the old state handler (if the current state is
set, registered and has a non-NULL handler) on a synthesized EXIT
event, commit the new state string, and invoke the new state handler
(if registered with a non-NULL handler) on a synthesized ENTRY event.
Handler return values are discarded. -/
def hsm_change_state_internal (h : Hsm) (new_state : String) : ChangeResult :=
  if g_strcmp0 h.current_state (some new_state) = 0 then
    { machine := h, invocations := [] }
  else
    let exitInvs : List Invocation :=
      match h.current_state with
      | none => []
      | some cs =>
        match tableLookup h.states cs with
        | none => []
        | some old =>
          match old.handler with
          | none => []
          | some hp =>
            [{ handler := hp, state := cs,
               event := hsm_event_new .EXIT none none h.name 0,
               user_data := old.user_data }]
    let h2 : Hsm := { h with current_state := some new_state }
    let entryInvs : List Invocation :=
      match tableLookup h2.states new_state with
      | none => []
      | some newst =>
        match newst.handler with
        | none => []
        | some hp =>
          [{ handler := hp, state := new_state,
             event := hsm_event_new .ENTRY none none h2.name 0,
             user_data := newst.user_data }]
    { machine := h2, invocations := exitInvs ++ entryInvs }

/-- Lookup of a state that resolves to a registered, non-NULL handler;
written from the claim wording "resolves to a registered handler". -/
def resolveHandler (h : Hsm) (s : String) : Option (HandlerPtr × GPointer) :=
  match tableLookup h.states s with
  | none => none
  | some st =>
    match st.handler with
    | none => none
    | some hp => some (hp, st.user_data)

/-- Modelled from the spec transition protocol, step 1: if
current_state is non-empty and resolves to a registered handler, an
EXIT event (no name, no data, source = machine name, seq = 0) is
synthesized and that handler invoked. -/
def specExitStep (h : Hsm) : List Invocation :=
  match h.current_state with
  | none => []
  | some cs =>
    match resolveHandler h cs with
    | none => []
    | some (hp, ud) =>
      [{ handler := hp, state := cs,
         event := { type := .EXIT, name := none, source := h.name, seq := 0, data := none },
         user_data := ud }]

/-- Modelled from the spec transition protocol, step 3: if the target
resolves to a registered handler, an ENTRY event of the same shape is
synthesized and invoked; if it does not resolve the step is skipped. -/
def specEntryStep (h : Hsm) (target : String) : List Invocation :=
  match resolveHandler h target with
  | none => []
  | some (hp, ud) =>
    [{ handler := hp, state := target,
       event := { type := .ENTRY, name := none, source := h.name, seq := 0, data := none },
       user_data := ud }]

/-- Behaviour of the handler function pointers: given the pointer, the
machine, the state name, the event and the user data, the boolean the
handler returns.  Dispatch is parametric in this semantics. -/
abbrev HandlerSem := HandlerPtr → Hsm → String → HsmEvent → GPointer → Bool

/-- What became of a dispatched event: either a copy was posted to the
parent machine (by address) and the original destroyed, or the
original was simply destroyed. -/
inductive EventFate where
  | bubbled (parent : Nat) (copy : HsmEvent)
  | destroyed
  deriving DecidableEq, Repr

/-- Result of hsm_process_post: the handled flag, the handler calls
made, and the fate of the event. -/
structure DispatchResult where
  handled : Bool
  invocations : List Invocation
  fate : EventFate
  deriving DecidableEq, Repr

/-- hsm_process_post, transcribed from hsm.c lines 408-440: look up the
current state (when set) in the state table; when the entry exists and
its handler pointer is non-NULL call it and take its boolean result as
handled, otherwise handled stays FALSE; when not handled and a parent
is set, build a fresh copy of the event with hsm_event_new and post it
to the parent, freeing the original; otherwise free the original. -/
def hsm_process_post (sem : HandlerSem) (h : Hsm) (ev : HsmEvent) : DispatchResult :=
  let call : Option (Invocation × Bool) :=
    match h.current_state with
    | none => none
    | some cs =>
      match tableLookup h.states cs with
      | none => none
      | some st =>
        match st.handler with
        | none => none
        | some hp =>
          some ({ handler := hp, state := cs, event := ev, user_data := st.user_data },
                sem hp h cs ev st.user_data)
  let handled : Bool :=
    match call with
    | some (_, b) => b
    | none => false
  let invs : List Invocation :=
    match call with
    | some (i, _) => [i]
    | none => []
  let fate : EventFate :=
    if handled = false then
      match h.parent with
      | some p =>
        EventFate.bubbled p (hsm_event_new ev.type ev.name ev.data ev.source ev.seq)
      | none => EventFate.destroyed
    else EventFate.destroyed
  { handled := handled, invocations := invs, fate := fate }

/-- Resolution of the current state to a handler, written from the
claim wording: the machine has a current state whose table entry
carries a non-NULL handler. -/
def resolveCurrent (h : Hsm) : Option (String × HandlerPtr × GPointer) :=
  match h.current_state with
  | none => none
  | some cs =>
    match resolveHandler h cs with
    | none => none
    | some (hp, ud) => some (cs, hp, ud)

/-- Modelled from the spec dispatch protocol: handled is the boolean
the resolved handler returns, and false when nothing resolves. -/
def specHandled (sem : HandlerSem) (h : Hsm) (ev : HsmEvent) : Bool :=
  match resolveCurrent h with
  | some (cs, hp, ud) => sem hp h cs ev ud
  | none => false

/-- Modelled from the spec dispatch protocol: the handler calls made by
one dispatch. -/
def specInvocations (h : Hsm) (ev : HsmEvent) : List Invocation :=
  match resolveCurrent h with
  | some (cs, hp, ud) => [{ handler := hp, state := cs, event := ev, user_data := ud }]
  | none => []

/-- Modelled from the spec dispatch protocol, steps 3 and 4: an
unhandled event bubbles as one copy (same kind, name, source, seq and
data handle) to the parent when one is set, and is destroyed
otherwise; a handled event is destroyed. -/
def specFate (sem : HandlerSem) (h : Hsm) (ev : HsmEvent) : EventFate :=
  if specHandled sem h ev = false then
    match h.parent with
    | some p =>
      EventFate.bubbled p
        { type := ev.type, name := ev.name, source := ev.source, seq := ev.seq,
          data := ev.data }
    | none => EventFate.destroyed
  else EventFate.destroyed

/-- Effects the public API performs on main contexts and threads,
recorded instead of executed. -/
inductive ApiEffect where
  | invokedChange (target : String)
  | postedEvent (ev : HsmEvent)
  | spawnedThread
  | ranLoop
  | quitLoop
  deriving DecidableEq, Repr

/-- Result of the public hsm_change_state. -/
structure PublicChangeResult where
  machine : Option Hsm
  effects : List ApiEffect
  invocations : List Invocation
  deriving DecidableEq, Repr

/-- hsm_change_state: NULL machine or NULL state name returns at once;
on the machine context (onContext) the transition runs synchronously,
otherwise a ChangeReq closure is posted to the machine context. -/
def hsm_change_state (h : Option Hsm) (new_state : Option String)
    (onContext : Bool) : PublicChangeResult :=
  match h, new_state with
  | some m, some ns =>
    if onContext then
      let r := hsm_change_state_internal m ns
      { machine := some r.machine, effects := [], invocations := r.invocations }
    else
      { machine := some m, effects := [ApiEffect.invokedChange ns], invocations := [] }
  | _, _ => { machine := h, effects := [], invocations := [] }

/-- hsm_post_event: NULL machine or NULL event returns at once;
otherwise the dispatch closure for the event is posted to the machine
context. -/
def hsm_post_event (h : Option Hsm) (ev : Option HsmEvent) : List ApiEffect :=
  match h, ev with
  | some _, some e => [ApiEffect.postedEvent e]
  | _, _ => []

/-- hsm_start: NULL machine returns at once; with run_in_thread a
worker thread is spawned when none exists yet, otherwise nothing
happens (the caller is expected to call hsm_run). -/
def hsm_start (h : Option Hsm) (run_in_thread : Bool) (tid : Nat) :
    Option Hsm × List ApiEffect :=
  match h with
  | none => (none, [])
  | some m =>
    if run_in_thread then
      match m.thread with
      | none => (some { m with thread := some tid }, [ApiEffect.spawnedThread])
      | some _ => (some m, [])
    else (some m, [])

/-- hsm_run: NULL machine returns at once; otherwise the loop runs on
the calling thread (recorded as an effect) and running is FALSE again
once it returns. -/
def hsm_run (h : Option Hsm) : Option Hsm × List ApiEffect :=
  match h with
  | none => (none, [])
  | some m => (some { m with running := false }, [ApiEffect.ranLoop])

/-- hsm_stop: NULL machine returns at once; otherwise the loop is quit
when it is running. -/
def hsm_stop (h : Option Hsm) : Option Hsm × List ApiEffect :=
  match h with
  | none => (none, [])
  | some m =>
    if m.loop_running then
      (some { m with loop_running := false }, [ApiEffect.quitLoop])
    else (some m, [])

/-- hsm_get_state_copy: NULL machine yields a fresh empty string;
otherwise a copy of the current state, or an empty string when no
state has been entered. -/
def hsm_get_state_copy (h : Option Hsm) : String :=
  match h with
  | none => ""
  | some m =>
    match m.current_state with
    | some cs => cs
    | none => ""

/-- The one-shot delayed dispatch a schedule call attaches: the GSource
address, the timer id baked into its callback context, and the
interval in milliseconds. -/
structure TimerAttach where
  source : Nat
  timer_id : Int
  interval_ms : Nat
  deriving DecidableEq, Repr

/-- Result of hsm_schedule_timer. -/
structure ScheduleResult where
  machine : Option Hsm
  ret : Int
  attached : Option TimerAttach
  deriving DecidableEq, Repr

/-- hsm_schedule_timer, transcribed from hsm.c lines 482-500: NULL
machine returns -1; otherwise the id is the pre-incremented
next_timer_id, a timeout GSource with that id in its context is
attached to the machine context (src is the address the allocator
returned), the id-to-source entry is inserted into the timer table,
and the id returned. -/
def hsm_schedule_timer (h : Option Hsm) (ms : Nat) (src : Nat) : ScheduleResult :=
  match h with
  | none => { machine := none, ret := -1, attached := none }
  | some m =>
    let tid : Int := m.next_timer_id + 1
    { machine :=
        some { m with next_timer_id := tid, timers := tableInsert m.timers tid src },
      ret := tid,
      attached := some { source := src, timer_id := tid, interval_ms := ms } }

/-- Result of the timer source callback. -/
structure TimerFireResult where
  machine : Hsm
  posted : List HsmEvent
  removeSource : Bool
  deriving DecidableEq, Repr

/-- hsm_timer_source_cb, transcribed from hsm.c lines 468-480: build a
TIMEOUT event named TIMER_EXPIRED with source = machine name, seq =
timer id and no data, post it to the machine, remove the id from the
timer table, and return G_SOURCE_REMOVE (the source never fires
again). -/
def hsm_timer_source_cb (h : Hsm) (timer_id : Int) : TimerFireResult :=
  let ev := hsm_event_new .TIMEOUT (some "TIMER_EXPIRED") none h.name timer_id
  { machine := { h with timers := tableRemove h.timers timer_id },
    posted := [ev],
    removeSource := true }

/-- Result of hsm_cancel_timer: the machine afterwards, the boolean
returned, and the GSource destroyed (detached), if any. -/
structure CancelResult where
  machine : Option Hsm
  ret : Bool
  destroyedSrc : Option Nat
  deriving DecidableEq, Repr

/-- hsm_cancel_timer, transcribed from hsm.c lines 502-517: NULL
machine returns FALSE; an id absent from the timer table returns FALSE
with nothing changed; otherwise the GSource found is destroyed, the
entry removed, and TRUE returned. -/
def hsm_cancel_timer (h : Option Hsm) (timer_id : Int) : CancelResult :=
  match h with
  | none => { machine := none, ret := false, destroyedSrc := none }
  | some m =>
    match tableLookup m.timers timer_id with
    | none => { machine := some m, ret := false, destroyedSrc := none }
    | some src =>
      { machine := some { m with timers := tableRemove m.timers timer_id },
        ret := true,
        destroyedSrc := some src }

/-- A GSource whose entry was removed or destroyed never fires: firing
id only has an effect while id is still in the timer table. -/
def timerFireStep (h : Hsm) (timer_id : Int) : Hsm × List HsmEvent :=
  match tableLookup h.timers timer_id with
  | some _ =>
    let r := hsm_timer_source_cb h timer_id
    (r.machine, r.posted)
  | none => (h, [])

/-- Number of entries carrying a given key in an association list. -/
def countKey {α β : Type} [DecidableEq α] (t : List (α × β)) (k : α) : Nat :=
  (t.filter (fun kv => decide (kv.1 = k))).length

/-- Timer-related operations a machine can undergo over its lifetime. -/
inductive TimerOp where
  | schedule (ms : Nat) (src : Nat)
  | cancel (id : Int)
  | fire (id : Int)
  deriving DecidableEq, Repr

/-- Apply one timer operation to the machine. -/
def applyTimerOp (h : Hsm) : TimerOp → Hsm
  | .schedule ms src =>
    match (hsm_schedule_timer (some h) ms src).machine with
    | some m => m
    | none => h
  | .cancel id =>
    match (hsm_cancel_timer (some h) id).machine with
    | some m => m
    | none => h
  | .fire id => (timerFireStep h id).1

/-- Run a sequence of timer operations. -/
def runOps (h : Hsm) : List TimerOp → Hsm
  | [] => h
  | op :: rest => runOps (applyTimerOp h op) rest

/-- The ids hsm_schedule_timer returns along a sequence of timer
operations, in call order. -/
def mintedIds (h : Hsm) : List TimerOp → List Int
  | [] => []
  | .schedule ms src :: rest =>
    (hsm_schedule_timer (some h) ms src).ret ::
      mintedIds (applyTimerOp h (.schedule ms src)) rest
  | op :: rest => mintedIds (applyTimerOp h op) rest

/-- Atomic actions on the shared current_state field and the machine
mutex, used to state the locking discipline. -/
inductive MemAction where
  | lock
  | unlock
  | readCurrentState
  | writeCurrentState (v : Option String)
  deriving DecidableEq, Repr

/-- Action trace of hsm_get_state_copy, from hsm.c lines 523-533: on a
non-NULL machine the read of current_state sits between g_mutex_lock
and g_mutex_unlock. -/
def hsm_get_state_copy_actions (h : Option Hsm) : List MemAction :=
  match h with
  | none => []
  | some _ => [MemAction.lock, MemAction.readCurrentState, MemAction.unlock]

/-- Action trace of hsm_change_state_internal on the current_state
field, from hsm.c lines 276-303: the g_strcmp0 guard reads it; on an
actual transition the exit branch reads it, the commit (g_free plus
g_strdup assignment) writes it, and the entry lookup reads it again.
The body contains no g_mutex_lock or g_mutex_unlock call. -/
def hsm_change_state_internal_actions (h : Hsm) (new_state : String) :
    List MemAction :=
  if g_strcmp0 h.current_state (some new_state) = 0 then
    [MemAction.readCurrentState]
  else
    [MemAction.readCurrentState, MemAction.readCurrentState,
     MemAction.writeCurrentState (some new_state), MemAction.readCurrentState]

/-- Auxiliary: scan a trace tracking whether the mutex is held and
check every write to current_state happens while it is held. -/
def writesLockedAux : Bool → List MemAction → Bool
  | _, [] => true
  | _, MemAction.lock :: rest => writesLockedAux true rest
  | _, MemAction.unlock :: rest => writesLockedAux false rest
  | held, MemAction.writeCurrentState _ :: rest => held && writesLockedAux held rest
  | held, MemAction.readCurrentState :: rest => writesLockedAux held rest

/-- Every write to current_state in the trace happens under the mutex. -/
def writesLocked (tr : List MemAction) : Bool :=
  writesLockedAux false tr

/-- Auxiliary: scan a trace tracking whether the mutex is held and
check every read of current_state happens while it is held. -/
def readsLockedAux : Bool → List MemAction → Bool
  | _, [] => true
  | _, MemAction.lock :: rest => readsLockedAux true rest
  | _, MemAction.unlock :: rest => readsLockedAux false rest
  | held, MemAction.readCurrentState :: rest => held && readsLockedAux held rest
  | held, MemAction.writeCurrentState _ :: rest => readsLockedAux held rest

/-- Every read of current_state in the trace happens under the mutex. -/
def readsLocked (tr : List MemAction) : Bool :=
  readsLockedAux false tr

/-!
Helper lemmas shared by the claim theorems.
-/

theorem strcmpChars_eq_zero_iff (as bs : List Char) :
    strcmpChars as bs = 0 ↔ as = bs := by
  induction as generalizing bs with
  | nil => cases bs <;> simp [strcmpChars]
  | cons a as ih =>
    cases bs with
    | nil => simp [strcmpChars]
    | cons b bs =>
      by_cases hab : a = b
      · subst hab
        simp [strcmpChars, ih]
      · have hnz : strcmpChars (a :: as) (b :: bs) ≠ 0 := by
          simp only [strcmpChars, if_neg hab]
          split
          · decide
          · decide
        constructor
        · intro hz
          exact absurd hz hnz
        · intro hl
          injection hl with h1 h2
          exact absurd h1 hab

theorem g_strcmp0_eq_zero_iff (a b : Option String) :
    g_strcmp0 a b = 0 ↔ a = b := by
  cases a with
  | none =>
    cases b with
    | none => simp [g_strcmp0]
    | some y => simp [g_strcmp0]
  | some x =>
    cases b with
    | none => simp [g_strcmp0]
    | some y =>
      constructor
      · intro hz
        have hd : x.data = y.data :=
          (strcmpChars_eq_zero_iff x.data y.data).mp (by simpa [g_strcmp0] using hz)
        exact congrArg some (String.ext hd)
      · intro hxy
        have hx : x = y := by injection hxy
        subst hx
        simpa [g_strcmp0] using (strcmpChars_eq_zero_iff x.data x.data).mpr rfl

theorem tableLookup_insert_self {α β : Type} [DecidableEq α]
    (t : List (α × β)) (k : α) (v : β) :
    tableLookup (tableInsert t k v) k = some v := by
  simp [tableInsert, tableLookup]

theorem tableLookup_remove_self {α β : Type} [DecidableEq α]
    (t : List (α × β)) (k : α) :
    tableLookup (tableRemove t k) k = none := by
  induction t with
  | nil => simp [tableRemove, tableLookup]
  | cons kv rest ih =>
    obtain ⟨k1, v1⟩ := kv
    by_cases hk : k1 = k
    · simpa [tableRemove, hk] using ih
    · simpa [tableRemove, tableLookup, hk] using ih

theorem countKey_remove_self {α β : Type} [DecidableEq α]
    (t : List (α × β)) (k : α) :
    countKey (tableRemove t k) k = 0 := by
  induction t with
  | nil => simp [tableRemove, countKey]
  | cons kv rest ih =>
    obtain ⟨k1, v1⟩ := kv
    by_cases hk : k1 = k
    · simpa [tableRemove, hk, countKey] using ih
    · simpa [tableRemove, countKey, hk] using ih

theorem countKey_insert_self {α β : Type} [DecidableEq α]
    (t : List (α × β)) (k : α) (v : β) :
    countKey (tableInsert t k v) k = 1 := by
  have h0 := countKey_remove_self t k
  simp only [countKey, tableInsert] at h0 ⊢
  simp [List.filter_cons, h0]

/-- The transition protocol of hsm_change_state_internal on an actual
transition, shared by several claim theorems. -/
theorem change_state_internal_spec (h : Hsm) (T : String)
    (hne : h.current_state ≠ some T) :
    hsm_change_state_internal h T =
      { machine := { h with current_state := some T },
        invocations := specExitStep h ++ specEntryStep h T } := by
  have hguard : ¬ g_strcmp0 h.current_state (some T) = 0 := by
    intro h0
    exact hne ((g_strcmp0_eq_zero_iff h.current_state (some T)).mp h0)
  unfold hsm_change_state_internal specExitStep specEntryStep resolveHandler
  rw [if_neg hguard]
  cases hcs : h.current_state with
  | none =>
    cases hl : tableLookup h.states T with
    | none => simp [hsm_event_new, hl]
    | some st =>
      cases hst : st.handler with
      | none => simp [hsm_event_new, hl, hst]
      | some hp => simp [hsm_event_new, hl, hst]
  | some cs =>
    cases hl : tableLookup h.states cs with
    | none =>
      cases hl2 : tableLookup h.states T with
      | none => simp [hsm_event_new, hl, hl2]
      | some st2 =>
        cases hst2 : st2.handler with
        | none => simp [hsm_event_new, hl, hl2, hst2]
        | some hp2 => simp [hsm_event_new, hl, hl2, hst2]
    | some st =>
      cases hst : st.handler with
      | none =>
        cases hl2 : tableLookup h.states T with
        | none => simp [hsm_event_new, hl, hst, hl2]
        | some st2 =>
          cases hst2 : st2.handler with
          | none => simp [hsm_event_new, hl, hst, hl2, hst2]
          | some hp2 => simp [hsm_event_new, hl, hst, hl2, hst2]
      | some hp =>
        cases hl2 : tableLookup h.states T with
        | none => simp [hsm_event_new, hl, hst, hl2]
        | some st2 =>
          cases hst2 : st2.handler with
          | none => simp [hsm_event_new, hl, hst, hl2, hst2]
          | some hp2 => simp [hsm_event_new, hl, hst, hl2, hst2]

/-- The no-op branch of hsm_change_state_internal, shared by claim
theorems. -/
theorem change_state_internal_self (h : Hsm) (T : String)
    (hcur : h.current_state = some T) :
    hsm_change_state_internal h T = { machine := h, invocations := [] } := by
  have hguard : g_strcmp0 h.current_state (some T) = 0 :=
    (g_strcmp0_eq_zero_iff h.current_state (some T)).mpr hcur
  unfold hsm_change_state_internal
  rw [if_pos hguard]

/-!
Claim theorems.
-/

/-- Claim C1: for every machine and target state not string-equal to
the current one, the transition synthesizes an EXIT event (no name, no
data, source = machine name, seq = 0) for the old state when it
resolves to a registered handler, commits the copied target as the
current state, then synthesizes an ENTRY event of the same shape for
the target when it resolves, skipping ENTRY otherwise while still
committing; the recorded handler call sequence is exactly the EXIT
call followed by the ENTRY call, with nothing interposed. -/
theorem claim_c1_transition_protocol (h : Hsm) (T : String)
    (hne : h.current_state ≠ some T) :
    hsm_change_state_internal h T =
      { machine := { h with current_state := some T },
        invocations := specExitStep h ++ specEntryStep h T } :=
  change_state_internal_spec h T hne

/-- Concrete instance of claim C1 on a two-state machine. -/
theorem claim_c1_transition_protocol_witness :
    hsm_change_state_internal
      { hsm_new (some "M") with
          current_state := some "A",
          states := [("A", ⟨"A", some 1, some 10⟩), ("B", ⟨"B", some 2, some 20⟩)] } "B" =
      { machine :=
          { { hsm_new (some "M") with
                current_state := some "A",
                states := [("A", ⟨"A", some 1, some 10⟩), ("B", ⟨"B", some 2, some 20⟩)] } with
              current_state := some "B" },
        invocations :=
          specExitStep
            { hsm_new (some "M") with
                current_state := some "A",
                states := [("A", ⟨"A", some 1, some 10⟩), ("B", ⟨"B", some 2, some 20⟩)] } ++
          specEntryStep
            { hsm_new (some "M") with
                current_state := some "A",
                states := [("A", ⟨"A", some 1, some 10⟩), ("B", ⟨"B", some 2, some 20⟩)] } "B" } :=
  claim_c1_transition_protocol
    { hsm_new (some "M") with
        current_state := some "A",
        states := [("A", ⟨"A", some 1, some 10⟩), ("B", ⟨"B", some 2, some 20⟩)] } "B"
    (by decide)

/-- Claim C7: a change_state request whose target is string-equal to
the current state is a no-op: no EXIT or ENTRY is synthesized, no
handler invoked, and the machine (its current_state included) is
unchanged, both for the internal transition and through the public
on-context entry point. -/
theorem claim_c7_self_transition_noop (h : Hsm) (T : String)
    (hcur : h.current_state = some T) :
    hsm_change_state_internal h T = { machine := h, invocations := [] } ∧
    hsm_change_state (some h) (some T) true =
      { machine := some h, effects := [], invocations := [] } := by
  have hint := change_state_internal_self h T hcur
  refine ⟨hint, ?_⟩
  simp [hsm_change_state, hint]

/-- Dispatch agrees with the spec-side description of handled flag,
invocation list and event fate. -/
theorem process_post_spec (sem : HandlerSem) (h : Hsm) (ev : HsmEvent) :
    hsm_process_post sem h ev =
      { handled := specHandled sem h ev,
        invocations := specInvocations h ev,
        fate := specFate sem h ev } := by
  unfold hsm_process_post specInvocations specFate
  cases hcs : h.current_state with
  | none =>
    cases hp : h.parent <;>
      simp [hsm_event_new, specHandled, resolveCurrent, resolveHandler, hcs]
  | some cs =>
    cases hl : tableLookup h.states cs with
    | none =>
      cases hp : h.parent <;>
        simp [hl, hsm_event_new, specHandled, resolveCurrent, resolveHandler, hcs]
    | some st =>
      cases hst : st.handler with
      | none =>
        cases hp : h.parent <;>
          simp [hl, hst, hsm_event_new, specHandled, resolveCurrent, resolveHandler, hcs]
      | some f =>
        cases hb : sem f h cs ev st.user_data <;>
          cases hp : h.parent <;>
            simp [hl, hst, hb, hsm_event_new, specHandled, resolveCurrent,
              resolveHandler, hcs]

/-- Claim C2: dispatch invokes the resolved handler of the current
state and takes its boolean as handled (false when nothing resolves);
an unhandled event with a parent set is bubbled as exactly one copy
carrying the same kind, name, source, seq and data handle while the
original is destroyed; otherwise the event is destroyed, and in no
case is an error surfaced to the caller. -/
theorem claim_c2_dispatch_bubbling (sem : HandlerSem) (h : Hsm) (ev : HsmEvent) :
    hsm_process_post sem h ev =
      { handled := specHandled sem h ev,
        invocations := specInvocations h ev,
        fate := specFate sem h ev } ∧
    (∀ p copy, (hsm_process_post sem h ev).fate = EventFate.bubbled p copy →
      h.parent = some p ∧ (hsm_process_post sem h ev).handled = false ∧
      copy.type = ev.type ∧ copy.name = ev.name ∧ copy.source = ev.source ∧
      copy.seq = ev.seq ∧ copy.data = ev.data) ∧
    ((hsm_process_post sem h ev).handled = true ∨ h.parent = none →
      (hsm_process_post sem h ev).fate = EventFate.destroyed) := by
  have hps := process_post_spec sem h ev
  refine ⟨hps, ?_, ?_⟩
  · intro p copy hf
    rw [hps] at hf ⊢
    simp only at hf ⊢
    unfold specFate at hf
    by_cases hh : specHandled sem h ev = false
    · rw [if_pos hh] at hf
      cases hpar : h.parent with
      | none =>
        rw [hpar] at hf
        exact absurd hf (by simp)
      | some q =>
        rw [hpar] at hf
        injection hf with h1 h2
        subst h1
        refine ⟨rfl, hh, ?_, ?_, ?_, ?_, ?_⟩ <;> rw [← h2]
    · rw [if_neg hh] at hf
      exact absurd hf (by simp)
  · intro hor
    rw [hps] at hor ⊢
    simp only at hor ⊢
    unfold specFate
    rcases hor with hh | hpar
    · simp [hh]
    · cases hh : specHandled sem h ev <;> simp [hpar, hh]

/-- Concrete instance of claim C2: an unhandled RESULT_OK event on a
child machine bubbles one identical copy to the parent. -/
theorem claim_c2_dispatch_bubbling_witness :
    (hsm_process_post (fun _ _ _ _ _ => false)
        { hsm_new (some "child") with
            current_state := some "s",
            states := [("s", ⟨"s", some 1, none⟩)],
            parent := some 7 }
        ⟨.RESULT_OK, some "done", some "child", 3, some 5⟩ =
      { handled :=
          specHandled (fun _ _ _ _ _ => false)
            { hsm_new (some "child") with
                current_state := some "s",
                states := [("s", ⟨"s", some 1, none⟩)],
                parent := some 7 }
            ⟨.RESULT_OK, some "done", some "child", 3, some 5⟩,
        invocations :=
          specInvocations
            { hsm_new (some "child") with
                current_state := some "s",
                states := [("s", ⟨"s", some 1, none⟩)],
                parent := some 7 }
            ⟨.RESULT_OK, some "done", some "child", 3, some 5⟩,
        fate :=
          specFate (fun _ _ _ _ _ => false)
            { hsm_new (some "child") with
                current_state := some "s",
                states := [("s", ⟨"s", some 1, none⟩)],
                parent := some 7 }
            ⟨.RESULT_OK, some "done", some "child", 3, some 5⟩ }) ∧
    (∀ p copy,
      (hsm_process_post (fun _ _ _ _ _ => false)
          { hsm_new (some "child") with
              current_state := some "s",
              states := [("s", ⟨"s", some 1, none⟩)],
              parent := some 7 }
          ⟨.RESULT_OK, some "done", some "child", 3, some 5⟩).fate =
        EventFate.bubbled p copy →
      ({ hsm_new (some "child") with
           current_state := some "s",
           states := [("s", ⟨"s", some 1, none⟩)],
           parent := some 7 } : Hsm).parent = some p ∧
      (hsm_process_post (fun _ _ _ _ _ => false)
          { hsm_new (some "child") with
              current_state := some "s",
              states := [("s", ⟨"s", some 1, none⟩)],
              parent := some 7 }
          ⟨.RESULT_OK, some "done", some "child", 3, some 5⟩).handled = false ∧
      copy.type = HsmEventType.RESULT_OK ∧ copy.name = some "done" ∧
      copy.source = some "child" ∧ copy.seq = 3 ∧ copy.data = some 5) ∧
    ((hsm_process_post (fun _ _ _ _ _ => false)
          { hsm_new (some "child") with
              current_state := some "s",
              states := [("s", ⟨"s", some 1, none⟩)],
              parent := some 7 }
          ⟨.RESULT_OK, some "done", some "child", 3, some 5⟩).handled = true ∨
      ({ hsm_new (some "child") with
           current_state := some "s",
           states := [("s", ⟨"s", some 1, none⟩)],
           parent := some 7 } : Hsm).parent = none →
      (hsm_process_post (fun _ _ _ _ _ => false)
          { hsm_new (some "child") with
              current_state := some "s",
              states := [("s", ⟨"s", some 1, none⟩)],
              parent := some 7 }
          ⟨.RESULT_OK, some "done", some "child", 3, some 5⟩).fate =
        EventFate.destroyed) :=
  claim_c2_dispatch_bubbling (fun _ _ _ _ _ => false)
    { hsm_new (some "child") with
        current_state := some "s",
        states := [("s", ⟨"s", some 1, none⟩)],
        parent := some 7 }
    ⟨.RESULT_OK, some "done", some "child", 3, some 5⟩

/-- Claim C3: schedule_timer mints the pre-incremented next_timer_id
(a positive integer under the initialisation invariant), records one
entry for it in the timer table, returns it, and attaches a one-shot
delayed dispatch for the requested interval whose firing removes the
entry and posts exactly one TIMEOUT event named TIMER_EXPIRED with
source = machine name, seq = the minted id and no data. -/
theorem claim_c3_schedule_timer (h : Hsm) (ms : Nat) (src : Nat)
    (hpos : 1 ≤ h.next_timer_id) :
    ∃ m2,
      (hsm_schedule_timer (some h) ms src).machine = some m2 ∧
      (hsm_schedule_timer (some h) ms src).ret = h.next_timer_id + 1 ∧
      0 < (hsm_schedule_timer (some h) ms src).ret ∧
      m2.next_timer_id = h.next_timer_id + 1 ∧
      tableLookup m2.timers (h.next_timer_id + 1) = some src ∧
      countKey m2.timers (h.next_timer_id + 1) = 1 ∧
      (hsm_schedule_timer (some h) ms src).attached =
        some ⟨src, h.next_timer_id + 1, ms⟩ ∧
      (hsm_timer_source_cb m2 (h.next_timer_id + 1)).posted =
        [⟨.TIMEOUT, some "TIMER_EXPIRED", h.name, h.next_timer_id + 1, none⟩] ∧
      tableLookup (hsm_timer_source_cb m2 (h.next_timer_id + 1)).machine.timers
        (h.next_timer_id + 1) = none ∧
      (hsm_timer_source_cb m2 (h.next_timer_id + 1)).removeSource = true := by
  refine ⟨{ h with
      next_timer_id := h.next_timer_id + 1,
      timers := tableInsert h.timers (h.next_timer_id + 1) src },
    rfl, rfl, by simp [hsm_schedule_timer]; omega, rfl,
    tableLookup_insert_self h.timers (h.next_timer_id + 1) src,
    countKey_insert_self h.timers (h.next_timer_id + 1) src,
    rfl, by simp [hsm_timer_source_cb, hsm_event_new], ?_, rfl⟩
  simp only [hsm_timer_source_cb]
  simpa [tableInsert] using
    tableLookup_remove_self (tableInsert h.timers (h.next_timer_id + 1) src)
      (h.next_timer_id + 1)

/-- Concrete instance of claim C3 on a freshly created machine. -/
theorem claim_c3_schedule_timer_witness :
    ∃ m2,
      (hsm_schedule_timer (some (hsm_new (some "M"))) 200 42).machine = some m2 ∧
      (hsm_schedule_timer (some (hsm_new (some "M"))) 200 42).ret =
        (hsm_new (some "M")).next_timer_id + 1 ∧
      0 < (hsm_schedule_timer (some (hsm_new (some "M"))) 200 42).ret ∧
      m2.next_timer_id = (hsm_new (some "M")).next_timer_id + 1 ∧
      tableLookup m2.timers ((hsm_new (some "M")).next_timer_id + 1) = some 42 ∧
      countKey m2.timers ((hsm_new (some "M")).next_timer_id + 1) = 1 ∧
      (hsm_schedule_timer (some (hsm_new (some "M"))) 200 42).attached =
        some ⟨42, (hsm_new (some "M")).next_timer_id + 1, 200⟩ ∧
      (hsm_timer_source_cb m2 ((hsm_new (some "M")).next_timer_id + 1)).posted =
        [⟨.TIMEOUT, some "TIMER_EXPIRED", (hsm_new (some "M")).name,
          (hsm_new (some "M")).next_timer_id + 1, none⟩] ∧
      tableLookup
        (hsm_timer_source_cb m2 ((hsm_new (some "M")).next_timer_id + 1)).machine.timers
        ((hsm_new (some "M")).next_timer_id + 1) = none ∧
      (hsm_timer_source_cb m2 ((hsm_new (some "M")).next_timer_id + 1)).removeSource =
        true :=
  claim_c3_schedule_timer (hsm_new (some "M")) 200 42 (by decide)

/-- Claim C4: cancel_timer returns true exactly when the id is present
in the timer table; on success it destroys (detaches) the recorded
GSource, removes the entry, and the timer can no longer fire; on an
absent id it returns false and leaves the machine unchanged. -/
theorem claim_c4_cancel_timer (h : Hsm) (id : Int) :
    ((hsm_cancel_timer (some h) id).ret = true ↔
      (tableLookup h.timers id).isSome = true) ∧
    (∀ src, tableLookup h.timers id = some src →
      hsm_cancel_timer (some h) id =
        ⟨some { h with timers := tableRemove h.timers id }, true, some src⟩ ∧
      tableLookup (tableRemove h.timers id) id = none ∧
      timerFireStep { h with timers := tableRemove h.timers id } id =
        ({ h with timers := tableRemove h.timers id }, [])) ∧
    (tableLookup h.timers id = none →
      hsm_cancel_timer (some h) id = ⟨some h, false, none⟩) := by
  refine ⟨?_, ?_, ?_⟩
  · cases hl : tableLookup h.timers id <;> simp [hsm_cancel_timer, hl]
  · intro src hl
    refine ⟨by simp [hsm_cancel_timer, hl], tableLookup_remove_self h.timers id, ?_⟩
    simp [timerFireStep, tableLookup_remove_self h.timers id]
  · intro hl
    simp [hsm_cancel_timer, hl]

/-- Concrete instance of claim C4 on a machine holding timer 5: the id
is present and cancel_timer returns true there. -/
theorem claim_c4_cancel_timer_witness :
    (tableLookup ({ hsm_new (some "M") with timers := [(5, 99)] } : Hsm).timers
        (5 : Int)).isSome = true ∧
    (hsm_cancel_timer (some { hsm_new (some "M") with timers := [(5, 99)] }) 5).ret =
      true :=
  ⟨by decide,
   (claim_c4_cancel_timer { hsm_new (some "M") with timers := [(5, 99)] } 5).1.mpr
     (by decide)⟩

/-- Concrete instance of claim C7. -/
theorem claim_c7_self_transition_noop_witness :
    hsm_change_state_internal
      { hsm_new (some "M") with
          current_state := some "A",
          states := [("A", ⟨"A", some 1, some 10⟩)] } "A" =
      { machine :=
          { hsm_new (some "M") with
              current_state := some "A",
              states := [("A", ⟨"A", some 1, some 10⟩)] },
        invocations := [] } ∧
    hsm_change_state
      (some { hsm_new (some "M") with
          current_state := some "A",
          states := [("A", ⟨"A", some 1, some 10⟩)] }) (some "A") true =
      { machine :=
          some { hsm_new (some "M") with
              current_state := some "A",
              states := [("A", ⟨"A", some 1, some 10⟩)] },
        effects := [], invocations := [] } :=
  claim_c7_self_transition_noop
    { hsm_new (some "M") with
        current_state := some "A",
        states := [("A", ⟨"A", some 1, some 10⟩)] } "A" (by decide)

/-- next_timer_id never decreases under any timer operation. -/
theorem next_le_applyTimerOp (h : Hsm) (op : TimerOp) :
    h.next_timer_id ≤ (applyTimerOp h op).next_timer_id := by
  cases op with
  | schedule ms src =>
    simp [applyTimerOp, hsm_schedule_timer]
  | cancel id =>
    unfold applyTimerOp hsm_cancel_timer
    cases hl : tableLookup h.timers id <;> simp [hl]
  | fire id =>
    unfold applyTimerOp timerFireStep
    cases hl : tableLookup h.timers id <;> simp [hl, hsm_timer_source_cb]

/-- next_timer_id after a schedule step. -/
theorem next_applyTimerOp_schedule (h : Hsm) (ms src : Nat) :
    (applyTimerOp h (.schedule ms src)).next_timer_id = h.next_timer_id + 1 := by
  simp [applyTimerOp, hsm_schedule_timer]

/-- next_timer_id after a cancel step. -/
theorem next_applyTimerOp_cancel (h : Hsm) (id : Int) :
    (applyTimerOp h (.cancel id)).next_timer_id = h.next_timer_id := by
  unfold applyTimerOp hsm_cancel_timer
  cases hl : tableLookup h.timers id <;> simp [hl]

/-- next_timer_id after a fire step. -/
theorem next_applyTimerOp_fire (h : Hsm) (id : Int) :
    (applyTimerOp h (.fire id)).next_timer_id = h.next_timer_id := by
  unfold applyTimerOp timerFireStep
  cases hl : tableLookup h.timers id <;> simp [hl, hsm_timer_source_cb]

/-- next_timer_id never decreases along a run. -/
theorem next_le_runOps (ops : List TimerOp) :
    ∀ h : Hsm, h.next_timer_id ≤ (runOps h ops).next_timer_id := by
  induction ops with
  | nil => intro h; simp [runOps]
  | cons op rest ih =>
    intro h
    calc h.next_timer_id ≤ (applyTimerOp h op).next_timer_id :=
          next_le_applyTimerOp h op
      _ ≤ (runOps (applyTimerOp h op) rest).next_timer_id :=
          ih (applyTimerOp h op)
      _ = (runOps h (op :: rest)).next_timer_id := rfl

/-- Every id minted along a run is strictly above the next_timer_id
the run started from. -/
theorem mintedIds_gt (ops : List TimerOp) :
    ∀ (h : Hsm) (x : Int), x ∈ mintedIds h ops → h.next_timer_id < x := by
  induction ops with
  | nil => intro h x hx; simp [mintedIds] at hx
  | cons op rest ih =>
    intro h x hx
    cases op with
    | schedule ms src =>
      rw [show mintedIds h (TimerOp.schedule ms src :: rest) =
          (hsm_schedule_timer (some h) ms src).ret ::
            mintedIds (applyTimerOp h (.schedule ms src)) rest from rfl] at hx
      rcases List.mem_cons.mp hx with hx1 | hx2
      · rw [hx1]
        simp [hsm_schedule_timer]
      · have hlt := ih (applyTimerOp h (.schedule ms src)) x hx2
        rw [next_applyTimerOp_schedule] at hlt
        omega
    | cancel id =>
      have hx2 : x ∈ mintedIds (applyTimerOp h (.cancel id)) rest := hx
      have hlt := ih (applyTimerOp h (.cancel id)) x hx2
      rw [next_applyTimerOp_cancel] at hlt
      exact hlt
    | fire id =>
      have hx2 : x ∈ mintedIds (applyTimerOp h (.fire id)) rest := hx
      have hlt := ih (applyTimerOp h (.fire id)) x hx2
      rw [next_applyTimerOp_fire] at hlt
      exact hlt

/-- The minted id sequence is pairwise strictly increasing. -/
theorem mintedIds_pairwise (ops : List TimerOp) :
    ∀ h : Hsm, (mintedIds h ops).Pairwise (fun a b => a < b) := by
  induction ops with
  | nil => intro h; simp [mintedIds]
  | cons op rest ih =>
    intro h
    cases op with
    | schedule ms src =>
      rw [show mintedIds h (TimerOp.schedule ms src :: rest) =
          (hsm_schedule_timer (some h) ms src).ret ::
            mintedIds (applyTimerOp h (.schedule ms src)) rest from rfl]
      refine List.Pairwise.cons ?_ (ih (applyTimerOp h (.schedule ms src)))
      intro x hx
      have hlt := mintedIds_gt rest (applyTimerOp h (.schedule ms src)) x hx
      rw [next_applyTimerOp_schedule] at hlt
      simp only [hsm_schedule_timer]
      omega
    | cancel id => exact ih (applyTimerOp h (.cancel id))
    | fire id => exact ih (applyTimerOp h (.fire id))

/-- Claim C5: along any sequence of schedule, cancel and fire
operations, the ids returned by schedule_timer are strictly
increasing, never repeat, and next_timer_id is never decremented or
reset. -/
theorem claim_c5_timer_ids_unique (h : Hsm) (ops : List TimerOp) :
    (mintedIds h ops).Pairwise (fun a b => a < b) ∧
    (mintedIds h ops).Nodup ∧
    h.next_timer_id ≤ (runOps h ops).next_timer_id :=
  ⟨mintedIds_pairwise ops h,
   (mintedIds_pairwise ops h).imp (fun hab => hab.ne),
   next_le_runOps ops h⟩

/-- Claim C6 evaluated at a concrete transition: the snapshot read in
hsm_get_state_copy is performed under the machine mutex, but
hsm_change_state_internal commits the write to current_state with no
lock or unlock action at all in its trace, contradicting the claimed
locking discipline for transition commit. -/
theorem claim_c6_commit_not_under_lock :
    readsLocked
      (hsm_get_state_copy_actions
        (some { hsm_new (some "M") with current_state := some "A" })) = true ∧
    writesLocked
      (hsm_change_state_internal_actions
        { hsm_new (some "M") with current_state := some "A" } "B") = false ∧
    MemAction.writeCurrentState (some "B") ∈
      hsm_change_state_internal_actions
        { hsm_new (some "M") with current_state := some "A" } "B" ∧
    (hsm_change_state_internal_actions
        { hsm_new (some "M") with current_state := some "A" } "B").count
      MemAction.lock = 0 := by
  refine ⟨by decide, by decide, ?_, by decide⟩
  decide

/-- Claim C8: every public operation on a NULL machine, and register or
change_state on a NULL state name, is a no-op returning its sentinel:
-1 for schedule_timer, false for cancel_timer, the empty string for
the state snapshot, and no state change or context effect for the void
operations. -/
theorem claim_c8_null_argument_sentinels (ms : Nat) (src : Nat) (id : Int)
    (sn : Option String) (hp : Option HandlerPtr) (ud : GPointer) (m : Hsm)
    (oc rit : Bool) (tid : Nat) (p : Option Nat) (e : Option HsmEvent) :
    hsm_schedule_timer none ms src = ⟨none, -1, none⟩ ∧
    hsm_cancel_timer none id = ⟨none, false, none⟩ ∧
    hsm_get_state_copy none = "" ∧
    hsm_register_state none sn hp ud = none ∧
    hsm_register_state (some m) none hp ud = some m ∧
    hsm_change_state none sn oc = ⟨none, [], []⟩ ∧
    hsm_change_state (some m) none oc = ⟨some m, [], []⟩ ∧
    hsm_post_event none e = [] ∧
    hsm_start none rit tid = (none, []) ∧
    hsm_run none = (none, []) ∧
    hsm_stop none = (none, []) ∧
    hsm_set_parent none p = none ∧
    hsm_get_parent none = none ∧
    hsm_get_name none = none := by
  refine ⟨rfl, rfl, rfl, ?_, rfl, ?_, rfl, rfl, rfl, rfl, rfl, rfl, rfl, rfl⟩
  · cases sn <;> rfl
  · cases sn <;> rfl

/-- Claim C9: every event accessor is total on a NULL event with a
fixed sentinel: the type accessor yields the enum value 0, which is
START; name, source and data yield NULL; seq yields 0; and freeing a
NULL event leaves the heap of live events unchanged. -/
theorem claim_c9_null_event_accessors :
    hsm_event_get_type none = HsmEventType.START ∧
    HsmEventType.ofValue 0 = HsmEventType.START ∧
    HsmEventType.toNat HsmEventType.START = 0 ∧
    hsm_event_get_name none = none ∧
    hsm_event_get_source none = none ∧
    hsm_event_get_data none = none ∧
    hsm_event_get_seq none = 0 ∧
    ∀ heap : EventHeap, hsm_event_free heap none = heap :=
  ⟨rfl, rfl, rfl, rfl, rfl, rfl, rfl, fun _ => rfl⟩

/-- Claim C10: registering a state with a NULL handler succeeds and the
entry lands in the registry, but the state behaves as unregistered for
callbacks: every event dispatched while it is current yields handled =
false with no handler call, so the event bubbles to the parent when
set and is destroyed otherwise; and transitions out of it or into it
invoke no EXIT or ENTRY callback for it while still committing the
current_state change. -/
theorem claim_c10_null_handler_state (sem : HandlerSem) (h : Hsm) (n : String)
    (ud : GPointer) (ev : HsmEvent) (T : String)
    (hcur : h.current_state = some n)
    (hent : tableLookup h.states n = some ⟨n, none, ud⟩)
    (hne : T ≠ n) :
    (∀ g : Hsm,
      hsm_register_state (some g) (some n) none ud =
        some { g with states := tableInsert g.states n ⟨n, none, ud⟩ } ∧
      tableLookup (tableInsert g.states n (⟨n, none, ud⟩ : HsmState)) n =
        some ⟨n, none, ud⟩) ∧
    (hsm_process_post sem h ev).handled = false ∧
    (hsm_process_post sem h ev).invocations = [] ∧
    (hsm_process_post sem h ev).fate =
      (match h.parent with
       | some p => EventFate.bubbled p ev
       | none => EventFate.destroyed) ∧
    hsm_change_state_internal h T =
      { machine := { h with current_state := some T },
        invocations := specEntryStep h T } ∧
    (∀ g : Hsm, tableLookup g.states n = some ⟨n, none, ud⟩ →
      g.current_state ≠ some n →
      hsm_change_state_internal g n =
        { machine := { g with current_state := some n },
          invocations := specExitStep g }) := by
  have hne2 : h.current_state ≠ some T := by
    rw [hcur]
    intro hc
    injection hc with hc2
    exact hne hc2.symm
  refine ⟨?_, ?_, ?_, ?_, ?_, ?_⟩
  · intro g
    exact ⟨by simp [hsm_register_state, hsm_state_new],
      tableLookup_insert_self g.states n ⟨n, none, ud⟩⟩
  · unfold hsm_process_post
    rw [hcur]
    simp [hent]
  · unfold hsm_process_post
    rw [hcur]
    simp [hent]
  · unfold hsm_process_post
    rw [hcur]
    cases hpar : h.parent <;> simp [hent, hpar, hsm_event_new]
  · have hspec := change_state_internal_spec h T hne2
    have hexit : specExitStep h = [] := by
      unfold specExitStep resolveHandler
      rw [hcur]
      simp [hent]
    rw [hspec, hexit]
    simp
  · intro g hgent hgne
    have hspec := change_state_internal_spec g n hgne
    have hentry : specEntryStep g n = [] := by
      unfold specEntryStep resolveHandler
      simp [hgent]
    rw [hspec, hentry]
    simp

/-- Concrete instance of claim C10: a state idle registered with a
NULL handler leaves a STEP event unhandled and bubbling to parent 3,
and a transition to other commits with no callback invoked. -/
theorem claim_c10_null_handler_state_witness :
    (hsm_process_post (fun _ _ _ _ _ => true)
        { hsm_new (some "M") with
            current_state := some "idle",
            states := [("idle", ⟨"idle", none, some 7⟩)],
            parent := some 3 }
        ⟨.STEP, some "go", none, 1, none⟩).handled = false ∧
    (hsm_process_post (fun _ _ _ _ _ => true)
        { hsm_new (some "M") with
            current_state := some "idle",
            states := [("idle", ⟨"idle", none, some 7⟩)],
            parent := some 3 }
        ⟨.STEP, some "go", none, 1, none⟩).fate =
      EventFate.bubbled 3 ⟨.STEP, some "go", none, 1, none⟩ ∧
    hsm_change_state_internal
        { hsm_new (some "M") with
            current_state := some "idle",
            states := [("idle", ⟨"idle", none, some 7⟩)],
            parent := some 3 } "other" =
      { machine :=
          { { hsm_new (some "M") with
                current_state := some "idle",
                states := [("idle", ⟨"idle", none, some 7⟩)],
                parent := some 3 } with
              current_state := some "other" },
        invocations :=
          specEntryStep
            { hsm_new (some "M") with
                current_state := some "idle",
                states := [("idle", ⟨"idle", none, some 7⟩)],
                parent := some 3 } "other" } := by
  have hall :=
    claim_c10_null_handler_state (fun _ _ _ _ _ => true)
      { hsm_new (some "M") with
          current_state := some "idle",
          states := [("idle", ⟨"idle", none, some 7⟩)],
          parent := some 3 }
      "idle" (some 7) ⟨.STEP, some "go", none, 1, none⟩ "other"
      (by decide) (by decide) (by decide)
  exact ⟨hall.2.1, hall.2.2.2.1, hall.2.2.2.2.1⟩

end HsmModel
